import Mathlib

/-!
Verification development for the student-dropout training app
(src/student_dropout_smarter_app.py).

The script's own logic is orchestration glue over pandas / scikit-learn /
streamlit.  We shallowly embed the authored logic:

* table cells are a sum type `Value` (integers, finite floats modelled as
  rationals, strings, and a missing marker standing for NaN);
* a pandas column is a named, dtyped list of cells; a data frame is the
  ordered list of its columns;
* the target/feature resolution, sentinel fill, label encoding, the
  per-algorithm training loop with its try/except isolation, the
  feature-importance extraction and alignment, the "save best model"
  handler, the risk banner, and the prediction form are each translated
  into executable Lean functions;
* model fitting itself is external (scikit-learn); the loop is therefore
  parametrised by an oracle `run : String -> Option (FitResult)` giving,
  for each algorithm name, either the fitted artefacts or `none` for a
  raised exception during `fit`/`predict`.
-/

namespace StudentDropout

/-- Scalar cell values of a pandas column.  Finite floating-point numbers
are modelled as rationals; `missing` stands for NaN / NA. -/
inductive Value
  | intV (n : ℤ)
  | floatV (q : ℚ)
  | strV (s : String)
  | missing
  deriving DecidableEq, Repr

/-- Column storage dtypes that the app's loaders (pandas read_csv /
read_excel with default options, and the hand-built demo frame) can
produce for feature data, plus the two 32-bit variants the prediction
form explicitly tests for. -/
inductive Dtype
  | int64
  | int32
  | float64
  | float32
  | object
  | category
  deriving DecidableEq, Repr

/-- A pandas column: a name, a storage dtype, and the cell values. -/
structure Column where
  name : String
  dtype : Dtype
  values : List Value
  deriving DecidableEq, Repr

/-- A data frame: the ordered list of its columns. -/
abbrev Frame : Type := List Column

/-- Membership of the dtype in numpy's np.number family, as used by
X.select_dtypes(include=[np.number]) in the resolver. -/
def isNumericDtype : Dtype → Bool
  | .int64 => true
  | .int32 => true
  | .float64 => true
  | .float32 => true
  | _ => false

/-- Membership test used by X.select_dtypes(include=['object','category']). -/
def isObjectLikeDtype : Dtype → Bool
  | .object => true
  | .category => true
  | _ => false

/-- Embedding of df.drop(columns=[target_col]): keep, in order, every
column whose name differs from the target. -/
def dropColumns (df : Frame) (target : String) : Frame :=
  df.filter (fun c => c.name != target)

/-- Embedding of fillna(-999) on a single cell.  pandas fills NaN in a
float column with the float -999.0; in an object/category (or integer)
column the fill value is the Python integer -999 itself — an integer
object, not a string. -/
def fillCell (d : Dtype) : Value → Value
  | .missing =>
    match d with
    | .float64 => .floatV (-999)
    | .float32 => .floatV (-999)
    | _ => .intV (-999)
  | v => v

/-- Sentinel fill of a whole column. -/
def fillColumn (c : Column) : Column :=
  { c with values := c.values.map (fillCell c.dtype) }

/-- Embedding of the feature-table construction
X = df.drop(columns=[target_col]).copy(); X = X.fillna(-999). -/
def featureTable (df : Frame) (target : String) : Frame :=
  (dropColumns df target).map fillColumn

/-- Names of the numeric feature columns
(X.select_dtypes(include=[np.number]).columns). -/
def numericCols (X : Frame) : List String :=
  (X.filter (fun c => isNumericDtype c.dtype)).map Column.name

/-- Names of the categorical feature columns
(X.select_dtypes(include=['object','category']).columns). -/
def categoricalCols (X : Frame) : List String :=
  (X.filter (fun c => isObjectLikeDtype c.dtype)).map Column.name

/-- The three risk tiers of the prediction banner. -/
inductive RiskTier
  | high
  | medium
  | low
  deriving DecidableEq, Repr

/-- Embedding of the risk banner branch:
if prob > 0.7: high; elif prob > 0.3: medium; else: low. -/
def riskTier (p : ℚ) : RiskTier :=
  if p > 7/10 then .high
  else if p > 3/10 then .medium
  else .low

/-- Text form of a cell, standing for Python's str() as used by
astype(str).  Python's decimal rendering of floats is not reproducible
exactly; the embedding renders the rational canonically (numerator, and
denominator when it is not one).  Distinct finite numbers keep distinct
text forms, which is the only property the development relies on. -/
def valueStr : Value → String
  | .strV s => s
  | .intV n => toString n
  | .floatV q => if q.den = 1 then toString q.num else toString q.num ++ "/" ++ toString q.den
  | .missing => "nan"

/-- Numeric content of a cell (used where the code treats a numeric
column's cells as numbers, e.g. the median default of the prediction
form).  Non-numeric cells do not occur in numeric-dtype columns; they
are mapped to 0. -/
def valueRat : Value → ℚ
  | .intV n => (n : ℚ)
  | .floatV q => q
  | _ => 0

/-- Truncation toward zero, the C-style cast numpy applies in
astype(int) on finite floats. -/
def truncToward0 (q : ℚ) : ℤ :=
  if 0 ≤ q then ⌊q⌋ else ⌈q⌉

/-- Helper for first-occurrence deduplication: keep each element not
seen before, in order, remembering what was seen. -/
def uniqueFirstAux {α : Type} [DecidableEq α] (seen : List α) : List α → List α
  | [] => []
  | a :: l => if a ∈ seen then uniqueFirstAux seen l
              else a :: uniqueFirstAux (a :: seen) l

/-- First-occurrence deduplication, the order pandas Series.unique()
returns distinct values in. -/
def uniqueFirst {α : Type} [DecidableEq α] (l : List α) : List α :=
  uniqueFirstAux [] l

/-- Collect a list of optional results, failing if any entry failed
(the whole astype(int) call raises when any cell does). -/
def allSome {α : Type} : List (Option α) → Option (List α)
  | [] => some []
  | none :: _ => none
  | some a :: l => (allSome l).map (fun r => a :: r)

/-- Median of a list of numbers, as pandas Series.median computes it on
a column without missing values: sort, take the middle element, or the
mean of the two middle elements for an even count (0 for the empty
column, where pandas would produce NaN). -/
def median (l : List ℚ) : ℚ :=
  let s := List.insertionSort (fun a b : ℚ => a ≤ b) l
  let n := s.length
  if n = 0 then 0
  else if n % 2 = 1 then s.getD (n / 2) 0
  else (s.getD (n / 2 - 1) 0 + s.getD (n / 2) 0) / 2

/-- Per-cell embedding of astype(int) on the target column: integers
pass through, finite floats truncate toward zero, and NaN raises (NaN
is the one cell kind a numeric-dtype column can hold that astype(int)
rejects; string cells sit in object columns, which never reach this
branch). -/
def astypeIntCell : Value → Option ℤ
  | .intV n => some n
  | .floatV q => some (truncToward0 q)
  | .strV _ => none
  | .missing => none

/-- Lexicographic comparison of character lists by code point, the
order numpy sorts string arrays in. -/
def charListLe : List Char → List Char → Bool
  | [], _ => true
  | _ :: _, [] => false
  | a :: as, b :: bs =>
    if a.toNat < b.toNat then true
    else if b.toNat < a.toNat then false
    else charListLe as bs

/-- Lexicographic string comparison by code point. -/
def strLe (a b : String) : Bool := charListLe a.data b.data

/-- Propositional form of the string comparison, for sorting. -/
def strLeProp (a b : String) : Prop := strLe a b = true

instance : DecidableRel strLeProp := fun a b =>
  inferInstanceAs (Decidable (strLe a b = true))

/-- Embedding of LabelEncoder().fit_transform(y_raw.astype(str)):
classes_ is the sorted list of distinct string forms, and each value is
replaced by the index of its string form among the classes. -/
def stringEncode (vals : List Value) : List ℤ :=
  let strs := vals.map valueStr
  let classes := List.insertionSort strLeProp (uniqueFirst strs)
  strs.map (fun s => (classes.indexOf s : ℤ))

/-- Embedding of the target-encoding branch chain: object/category
dtype goes through the string mapping; otherwise astype(int) is tried
and its exception is caught by falling back to the string mapping. -/
def encodeTargetCode (c : Column) : List ℤ :=
  if isObjectLikeDtype c.dtype then stringEncode c.values
  else
    match allSome (c.values.map astypeIntCell) with
    | some ns => ns
    | none => stringEncode c.values

/-- Does a cell hold a value that is cleanly an integer (an integer, or
a float with no fractional part)?  Used only by the spec-side reading
of the encoding claim. -/
def cleanlyIntCastable : Value → Bool
  | .intV _ => true
  | .floatV q => q.den == 1
  | _ => false

/-- Spec-side reading of the encoding claim, stated for comparison with
the code: text/categorical values take the string mapping; numeric
values that are not cleanly integer-castable fall back to the same
string mapping; otherwise the values are cast directly to integers. -/
def encodeTargetSpec (c : Column) : List ℤ :=
  if isObjectLikeDtype c.dtype then stringEncode c.values
  else if c.values.all cleanlyIntCastable then
    c.values.map (fun v =>
      match v with
      | .intV n => n
      | .floatV q => q.num
      | _ => 0)
  else stringEncode c.values

/-- Shape of a fitted learner's coef_ attribute: a one-dimensional
vector, or a two-dimensional matrix with one row per class. -/
inductive CoefArr
  | vec (v : List ℚ)
  | mat (rows : List (List ℚ))
  deriving DecidableEq, Repr

/-- Capability record of a fitted learner object: the optional
feature_importances_ array and the optional coef_ array, mirroring the
two hasattr checks of the extraction branch. -/
structure ModelObj where
  feature_importances_ : Option (List ℚ)
  coef_ : Option CoefArr
  deriving DecidableEq, Repr

/-- Embedding of np.mean(np.abs(coef), axis=0) on a matrix with one row
per class: entry j is the mean over the rows of the absolute values in
column j. -/
def meanAbsAxis0 (rows : List (List ℚ)) : List ℚ :=
  (List.range (rows.headD []).length).map
    (fun j => ((rows.map (fun r => |r.getD j 0|)).sum) / (rows.length : ℚ))

/-- Embedding of the importance-extraction branch: native
feature_importances_ first; else absolute coefficients (mean of
absolute values across classes for a matrix); else nothing. -/
def extractImp (m : ModelObj) : Option (List ℚ) :=
  match m.feature_importances_ with
  | some a => some a
  | none =>
    match m.coef_ with
    | some (.vec v) => some (v.map (fun x => |x|))
    | some (.mat rows) => some (meanAbsAxis0 rows)
    | none => none

/-- Ordering of importance rows used by
sort_values('importance', ascending=False): row a precedes row b when
its score is at least b's. -/
def impGE (a b : String × ℚ) : Prop := b.2 ≤ a.2

instance : DecidableRel impGE := fun a b =>
  inferInstanceAs (Decidable (b.2 ≤ a.2))

instance : IsTotal (String × ℚ) impGE := ⟨fun a b => le_total b.2 a.2⟩

instance : IsTrans (String × ℚ) impGE := ⟨fun _ _ _ h1 h2 => le_trans h2 h1⟩

/-- Embedding of the importance-table construction: when an importance
array was extracted, pair it with the resolved feature names
(truncating both to the shorter length on a mismatch, exactly as the
minlen branch does) and sort descending by score; when none was
extracted, produce no table. -/
def alignTable (featNames : List String) : Option (List ℚ) → Option (List (String × ℚ))
  | none => none
  | some imp =>
    if imp.length = featNames.length then
      some (List.insertionSort impGE (featNames.zip imp))
    else
      let minlen := min imp.length featNames.length
      some (List.insertionSort impGE ((featNames.take minlen).zip (imp.take minlen)))

/-- Artefacts of one successful pipe.fit / pipe.predict round for one
algorithm, as produced by the external library: the fitted pipeline
(abstract, of type pi), the held-out predictions, the accuracy, and the
fitted model object's capability record. -/
structure FitResult (pi : Type) where
  pipe : pi
  preds : List ℤ
  acc : ℚ
  model : ModelObj

/-- One entry of the results dict: {'accuracy': acc, 'preds': preds}. -/
structure ResEntry where
  accuracy : ℚ
  preds : List ℤ
  deriving DecidableEq, Repr

/-- Session stores written by the training loop: trained_models,
results, feature_importances, and the warnings emitted by the except
branches. -/
structure Store (pi : Type) where
  trained : List (String × pi)
  results : List (String × ResEntry)
  importances : List (String × List (String × ℚ))
  warnings : List String

/-- The stores before the loop starts (all dicts empty). -/
def emptyStore {pi : Type} : Store pi := ⟨[], [], [], []⟩

/-- One iteration of the training loop for algorithm name.  A raised
exception during fit/predict (run name = none) is caught: a warning
naming the algorithm is recorded and no store changes.  On success the
pipeline, the result entry and — when one is produced — the importance
table are appended. -/
def trainStep {pi : Type} (featNames : List String) (run : String → Option (FitResult pi))
    (st : Store pi) (name : String) : Store pi :=
  match run name with
  | none => { st with warnings := st.warnings ++ ["Training failed for " ++ name] }
  | some r =>
    let st1 := { st with
      trained := st.trained ++ [(name, r.pipe)],
      results := st.results ++ [(name, ⟨r.acc, r.preds⟩)] }
    match alignTable featNames (extractImp r.model) with
    | none => st1
    | some tbl => { st1 with importances := st1.importances ++ [(name, tbl)] }

/-- The whole training loop: fold the per-algorithm step over the
selected algorithm names, starting from empty stores. -/
def trainLoop {pi : Type} (featNames : List String) (run : String → Option (FitResult pi))
    (algos : List String) : Store pi :=
  algos.foldl (trainStep featNames run) emptyStore

/-- The fixed seven-algorithm catalog, in the order the options surface
lists it. -/
def catalog : List String :=
  ["Logistic Regression", "Random Forest", "Gradient Boosting", "Decision Tree",
   "SVM", "KNN", "Naive Bayes"]

/-- Embedding of Python's max(items, key=...) once the sequence is
nonempty: fold keeping the current maximum, replacing it only on a
strictly larger key, so the first maximal element wins. -/
def pyMax {α : Type} (key : α → ℚ) (a : α) (l : List α) : α :=
  l.foldl (fun b x => if key b < key x then x else b) a

/-- Embedding of Python's max(items, key=...) including the empty case,
where max raises ValueError (modelled as none). -/
def pyMaxBy {α : Type} (key : α → ℚ) : List α → Option α
  | [] => none
  | a :: l => some (pyMax key a l)

/-- Embedding of the Save-best-model handler:
best = max(results.items(), key=lambda x: x[1]['accuracy'])[0];
joblib.dump(trained_models[best], "best_dropout_model.joblib").
The produced artefact is the pair (filename, pipeline); the two failure
modes (max on an empty dict, missing key) are the raised exceptions. -/
def saveBest {pi : Type} (st : Store pi) : Except String (String × pi) :=
  match pyMaxBy (fun x => x.2.accuracy) st.results with
  | none => .error "ValueError: max() arg is an empty sequence"
  | some best =>
    match st.trained.lookup best.1 with
    | some p => .ok ("best_dropout_model.joblib", p)
    | none => .error "KeyError"

/-- Visibility of the Save-best-model button: it renders whenever the
session state holds a results key, i.e. whenever a training run has
happened, with no emptiness guard. -/
def saveButtonShown {pi : Type} : Option (Store pi) → Bool :=
  Option.isSome

/-- Widgets of the single-prediction form. -/
inductive Widget
  | numberInput (label : String) (default : ℚ)
  | selectBox (label : String) (options : List String) (defaultIdx : ℕ)
  deriving DecidableEq, Repr

/-- Dtype test of the prediction form:
X[col].dtype in [np.int64, np.float64, np.int32, np.float32]. -/
def formIsNumeric : Dtype → Bool
  | .int64 => true
  | .float64 => true
  | .int32 => true
  | .float32 => true
  | _ => false

/-- Embedding of one iteration of the form loop: a numeric entry
defaulting to the column's median for a numeric-dtype column, else a
closed choice over list(X[col].astype(str).unique()) with index 0
pre-selected. -/
def renderWidget (c : Column) : Widget :=
  if formIsNumeric c.dtype then
    .numberInput c.name (median (c.values.map valueRat))
  else
    .selectBox c.name (uniqueFirst (c.values.map valueStr)) 0

/-- The whole prediction form: one widget per feature column. -/
def renderForm (X : Frame) : List Widget :=
  X.map renderWidget

theorem mem_uniqueFirstAux {α : Type} [DecidableEq α] :
    ∀ (l : List α) (seen : List α) (x : α),
      x ∈ uniqueFirstAux seen l ↔ (x ∈ l ∧ x ∉ seen)
  | [], seen, x => by simp [uniqueFirstAux]
  | a :: l, seen, x => by
    by_cases ha : a ∈ seen
    · rw [uniqueFirstAux, if_pos ha, mem_uniqueFirstAux l seen x]
      constructor
      · exact fun h => ⟨List.mem_cons_of_mem a h.1, h.2⟩
      · rintro ⟨hmem, hns⟩
        rcases List.mem_cons.1 hmem with h | h
        · exact absurd (h ▸ ha) hns
        · exact ⟨h, hns⟩
    · rw [uniqueFirstAux, if_neg ha]
      constructor
      · intro h
        rcases List.mem_cons.1 h with h | h
        · exact ⟨h ▸ List.mem_cons_self a l, h ▸ ha⟩
        · have h2 := (mem_uniqueFirstAux l (a :: seen) x).1 h
          exact ⟨List.mem_cons_of_mem a h2.1,
            fun hx => h2.2 (List.mem_cons_of_mem a hx)⟩
      · rintro ⟨hmem, hns⟩
        rcases List.mem_cons.1 hmem with h | h
        · exact h ▸ List.mem_cons_self a _
        · by_cases hxa : x = a
          · exact hxa ▸ List.mem_cons_self a _
          · refine List.mem_cons_of_mem a ?_
            refine (mem_uniqueFirstAux l (a :: seen) x).2 ⟨h, ?_⟩
            intro hx
            rcases List.mem_cons.1 hx with h2 | h2
            · exact hxa h2
            · exact hns h2

theorem mem_uniqueFirst {α : Type} [DecidableEq α] (l : List α) (x : α) :
    x ∈ uniqueFirst l ↔ x ∈ l := by
  rw [uniqueFirst, mem_uniqueFirstAux l [] x]
  simp

theorem nodup_uniqueFirstAux {α : Type} [DecidableEq α] :
    ∀ (l : List α) (seen : List α), (uniqueFirstAux seen l).Nodup
  | [], seen => by simp [uniqueFirstAux]
  | a :: l, seen => by
    by_cases ha : a ∈ seen
    · rw [uniqueFirstAux, if_pos ha]
      exact nodup_uniqueFirstAux l seen
    · rw [uniqueFirstAux, if_neg ha]
      refine List.nodup_cons.2 ⟨?_, nodup_uniqueFirstAux l (a :: seen)⟩
      intro hmem
      exact ((mem_uniqueFirstAux l (a :: seen) a).1 hmem).2 (List.mem_cons_self a seen)

theorem nodup_uniqueFirst {α : Type} [DecidableEq α] (l : List α) :
    (uniqueFirst l).Nodup :=
  nodup_uniqueFirstAux l []

theorem headOpt_uniqueFirst {α : Type} [DecidableEq α] (l : List α) :
    (uniqueFirst l).head? = l.head? := by
  cases l with
  | nil => rfl
  | cons a l =>
    rw [uniqueFirst, uniqueFirstAux, if_neg (List.not_mem_nil a)]
    rfl

theorem allSome_map_eq_some {α β : Type} (f : α → Option β) (d : β) :
    ∀ l : List α, (∀ x ∈ l, (f x).isSome) →
      allSome (l.map f) = some (l.map (fun x => (f x).getD d))
  | [], _ => rfl
  | a :: l, h => by
    obtain ⟨b, hb⟩ := Option.isSome_iff_exists.1 (h a (List.mem_cons_self a l))
    have ih := allSome_map_eq_some f d l (fun x hx => h x (List.mem_cons_of_mem a hx))
    simp [allSome, hb, ih]

theorem allSome_map_eq_none {α β : Type} (f : α → Option β) :
    ∀ l : List α, (∃ x ∈ l, f x = none) → allSome (l.map f) = none
  | a :: l, ⟨x, hx, hfx⟩ => by
    cases hfa : f a with
    | none => simp [allSome, hfa]
    | some b =>
      rcases List.mem_cons.1 hx with h | h
      · rw [h] at hfx; rw [hfx] at hfa; exact absurd hfa (by simp)
      · have ih := allSome_map_eq_none f l ⟨x, h, hfx⟩
        simp [allSome, hfa, ih]

theorem trainLoop_foldl_eq {pi : Type} (featNames : List String)
    (run : String → Option (FitResult pi)) :
    ∀ (algos : List String) (st : Store pi),
      algos.foldl (trainStep featNames run) st =
        { trained := st.trained ++
            algos.filterMap (fun a => (run a).map (fun r => (a, r.pipe))),
          results := st.results ++
            algos.filterMap (fun a => (run a).map (fun r => (a, ⟨r.acc, r.preds⟩))),
          importances := st.importances ++
            algos.filterMap (fun a => (run a).bind (fun r =>
              (alignTable featNames (extractImp r.model)).map (fun tbl => (a, tbl)))),
          warnings := st.warnings ++
            algos.filterMap (fun a =>
              match run a with
              | none => some ("Training failed for " ++ a)
              | some _ => none) }
  | [], st => by cases st; simp
  | a :: l, st => by
    have ih := trainLoop_foldl_eq featNames run l (trainStep featNames run st a)
    rw [List.foldl_cons, ih]
    cases hrun : run a with
    | none =>
      simp [trainStep, hrun, List.filterMap_cons, List.append_assoc]
    | some r =>
      cases halign : alignTable featNames (extractImp r.model) with
      | none =>
        simp [trainStep, hrun, halign, List.filterMap_cons, List.append_assoc]
      | some tbl =>
        simp [trainStep, hrun, halign, List.filterMap_cons, List.append_assoc]

theorem keys_of_filterMap {α β γ : Type} (g : α → Option β) (h : β → γ) :
    ∀ l : List α,
      (l.filterMap (fun a => (g a).map (fun b => (a, h b)))).map Prod.fst
        = l.filter (fun a => (g a).isSome)
  | [] => rfl
  | a :: l => by
    cases hg : g a <;>
      simp [List.filterMap_cons, hg, keys_of_filterMap g h l, List.filter_cons]

theorem pyMax_spec {α : Type} (key : α → ℚ) :
    ∀ (l : List α) (a : α),
      ∃ l₁ l₂, a :: l = l₁ ++ pyMax key a l :: l₂ ∧
        (∀ x ∈ l₁, key x < key (pyMax key a l)) ∧
        (∀ x ∈ a :: l, key x ≤ key (pyMax key a l))
  | [], a => ⟨[], [], by simp [pyMax], by simp [pyMax], by simp [pyMax]⟩
  | x :: l, a => by
    by_cases h : key a < key x
    · obtain ⟨l₁, l₂, heq, hlt, hle⟩ := pyMax_spec key l x
      have hm : pyMax key a (x :: l) = pyMax key x l := by
        simp [pyMax, List.foldl_cons, if_pos h]
      refine ⟨a :: l₁, l₂, ?_, ?_, ?_⟩
      · rw [hm, List.cons_append, ← heq]
      · intro y hy
        rw [hm]
        rcases List.mem_cons.1 hy with hy | hy
        · exact hy ▸ lt_of_lt_of_le h (hle x (List.mem_cons_self x l))
        · exact hlt y hy
      · intro y hy
        rw [hm]
        rcases List.mem_cons.1 hy with hy | hy
        · exact hy ▸ le_of_lt (lt_of_lt_of_le h (hle x (List.mem_cons_self x l)))
        · exact hle y hy
    · obtain ⟨l₁, l₂, heq, hlt, hle⟩ := pyMax_spec key l a
      have hm : pyMax key a (x :: l) = pyMax key a l := by
        simp [pyMax, List.foldl_cons, if_neg h]
      cases l₁ with
      | nil =>
        have ha : a = pyMax key a l := by
          have := heq
          simp at this
          exact this.1
        refine ⟨[], x :: l, ?_, by simp, ?_⟩
        · rw [hm, ← ha]; rfl
        · intro y hy
          rw [hm, ← ha]
          rcases List.mem_cons.1 hy with hy | hy
          · exact hy ▸ le_refl _
          · rcases List.mem_cons.1 hy with hy | hy
            · exact hy ▸ le_of_not_lt h
            · have := hle y (List.mem_cons_of_mem a hy)
              rw [← ha] at this
              exact this
      | cons b l₁t =>
        rw [List.cons_append] at heq
        obtain ⟨hab, hl⟩ := List.cons_eq_cons.1 heq
        refine ⟨a :: x :: l₁t, l₂, ?_, ?_, ?_⟩
        · rw [hm, List.cons_append, List.cons_append, ← hl]
        · intro y hy
          rw [hm]
          have hamax : key a < key (pyMax key a l) := by
            have hb := hlt b (List.mem_cons_self b l₁t)
            rwa [← hab] at hb
          rcases List.mem_cons.1 hy with hy | hy
          · exact hy ▸ hamax
          · rcases List.mem_cons.1 hy with hy | hy
            · exact hy ▸ lt_of_le_of_lt (le_of_not_lt h) hamax
            · exact hlt y (List.mem_cons_of_mem b hy)
        · intro y hy
          rw [hm]
          rcases List.mem_cons.1 hy with hy | hy
          · exact hy ▸ hle a (List.mem_cons_self a l)
          · rcases List.mem_cons.1 hy with hy | hy
            · exact hy ▸ le_trans (le_of_not_lt h) (hle a (List.mem_cons_self a l))
            · exact hle y (List.mem_cons_of_mem a hy)

theorem lookup_trained {pi : Type} (run : String → Option (FitResult pi)) :
    ∀ (algos : List String) (a : String) (r : FitResult pi),
      a ∈ algos → run a = some r →
      (algos.filterMap (fun x => (run x).map (fun s => (x, s.pipe)))).lookup a
        = some r.pipe
  | x :: l, a, r, hmem, hrun => by
    cases hx : run x with
    | none =>
      have ha : a ∈ l := by
        rcases List.mem_cons.1 hmem with h | h
        · rw [h] at hrun; rw [hrun] at hx; exact absurd hx (by simp)
        · exact h
      simpa [List.filterMap_cons, hx] using lookup_trained run l a r ha hrun
    | some s =>
      by_cases hax : a = x
      · subst hax
        have hsr : s = r := by
          rw [hx] at hrun
          exact Option.some_inj.1 hrun
        simp [List.filterMap_cons, hx, List.lookup, hsr]
      · have ha : a ∈ l := by
          rcases List.mem_cons.1 hmem with h | h
          · exact absurd h hax
          · exact h
        have hbe : (a == x) = false := beq_eq_false_iff_ne.2 hax
        simp [List.filterMap_cons, hx, List.lookup, hbe,
          lookup_trained run l a r ha hrun]

theorem fillCell_ne_missing (d : Dtype) (v : Value) : fillCell d v ≠ Value.missing := by
  cases v <;> cases d <;> simp [fillCell]

/-- C1: the risk tiering is a pure function of the predicted
probability p: p above 0.7 yields the high tier, p above 0.3 and at
most 0.7 yields the medium tier, p at most 0.3 yields the low tier,
and the boundary values 0.7 and 0.3 map to medium and low. -/
theorem C1_risk_tiering (p : ℚ) :
    (7/10 < p → riskTier p = RiskTier.high) ∧
    (3/10 < p → p ≤ 7/10 → riskTier p = RiskTier.medium) ∧
    (p ≤ 3/10 → riskTier p = RiskTier.low) ∧
    riskTier (7/10) = RiskTier.medium ∧
    riskTier (3/10) = RiskTier.low := by
  refine ⟨?_, ?_, ?_, by norm_num [riskTier], by norm_num [riskTier]⟩
  · intro h
    unfold riskTier
    rw [if_pos h]
  · intro h1 h2
    unfold riskTier
    rw [if_neg (not_lt.2 h2), if_pos h1]
  · intro h
    unfold riskTier
    rw [if_neg (not_lt.2 (h.trans (by norm_num))), if_neg (not_lt.2 h)]

theorem C1_risk_tiering_witness :
    riskTier (9/10) = RiskTier.high ∧
    riskTier (1/2) = RiskTier.medium ∧
    riskTier (1/10) = RiskTier.low :=
  ⟨(C1_risk_tiering (9/10)).1 (by norm_num),
   (C1_risk_tiering (1/2)).2.1 (by norm_num) (by norm_num),
   (C1_risk_tiering (1/10)).2.2.1 (by norm_num)⟩

/-- C8: for any data frame and any target column name, the feature
table holds exactly the frame's columns minus the target column, in
the frame's order, each keeping its row count; and the drop step keeps
a column unchanged exactly when its name differs from the target. -/
theorem C8_feature_table_shape (df : Frame) (t : String) :
    ((featureTable df t).map (fun c => (c.name, c.values.length))
        = (df.map (fun c => (c.name, c.values.length))).filter (fun p => p.1 != t)) ∧
    (∀ c : Column, c ∈ dropColumns df t ↔ (c ∈ df ∧ c.name ≠ t)) := by
  constructor
  · show ((dropColumns df t).map fillColumn).map _ = _
    rw [List.map_map]
    have hcomp : ((fun c : Column => (c.name, c.values.length)) ∘ fillColumn)
        = fun c : Column => (c.name, c.values.length) := by
      funext c
      simp [fillColumn]
    rw [hcomp, dropColumns, List.filter_map]
    rfl
  · intro c
    simp [dropColumns, List.mem_filter, bne_iff_ne]

/-- Example frame for the sentinel-fill analysis: a categorical
feature column with one missing entry, plus an integer target. -/
def exDfC3 : Frame :=
  [⟨"Financial_Status", .object, [.strV "low", .missing]⟩,
   ⟨"Dropout_Risk", .int64, [.intV 0, .intV 1]⟩]

/-- C3 counterexample: after resolving exDfC3 with target
Dropout_Risk, the originally-missing entry of the categorical feature
column holds the integer -999 — not the string "-999" the claim
asserts.  fillna(-999) inserts the fill value itself into object
columns. -/
theorem C3_counterexample :
    (featureTable exDfC3 "Dropout_Risk").map Column.dtype = [Dtype.object] ∧
    (featureTable exDfC3 "Dropout_Risk").map Column.values
      = [[Value.strV "low", Value.intV (-999)]] ∧
    Value.intV (-999) ≠ Value.strV "-999" := by
  decide

/-- C3 (amended): after target/feature resolution no feature column
contains a missing value; an originally-missing entry of a numeric
feature column is filled with the number -999 (as a float in float
columns, as an integer otherwise), and an originally-missing entry of
a categorical feature column is filled with the integer -999 itself,
not its string form. -/
theorem C3_sentinel_fill (df : Frame) (t : String) :
    (∀ c ∈ featureTable df t, ∀ v ∈ c.values, v ≠ Value.missing) ∧
    (∀ c ∈ dropColumns df t, ∀ v ∈ c.values, v = Value.missing →
        (isNumericDtype c.dtype = true →
            fillCell c.dtype v = Value.floatV (-999)
              ∨ fillCell c.dtype v = Value.intV (-999)) ∧
        (isObjectLikeDtype c.dtype = true →
            fillCell c.dtype v = Value.intV (-999)
              ∧ fillCell c.dtype v ≠ Value.strV "-999")) := by
  constructor
  · intro c hc v hv
    obtain ⟨c₀, _, rfl⟩ := List.mem_map.1 hc
    obtain ⟨v₀, _, rfl⟩ := List.mem_map.1 hv
    exact fillCell_ne_missing _ _
  · intro c _ v _ hm
    subst hm
    refine ⟨fun hd => ?_, fun hd => ?_⟩
    · cases h : c.dtype <;> rw [h] at hd <;>
        simp_all [fillCell, isNumericDtype]
    · cases h : c.dtype <;> rw [h] at hd <;>
        simp_all [fillCell, isObjectLikeDtype]

theorem C3_sentinel_fill_witness :
    fillCell Dtype.object Value.missing = Value.intV (-999) ∧
    fillCell Dtype.object Value.missing ≠ Value.strV "-999" :=
  (C3_sentinel_fill exDfC3 "Dropout_Risk").2
    (Column.mk "Financial_Status" Dtype.object [Value.strV "low", Value.missing])
    (by decide) Value.missing (by decide) rfl |>.2 (by decide)

theorem alignTable_some_eq (featNames : List String) (imp : List ℚ) :
    alignTable featNames (some imp) =
      some (List.insertionSort impGE
        ((featNames.take (min imp.length featNames.length)).zip
          (imp.take (min imp.length featNames.length)))) := by
  by_cases h : imp.length = featNames.length
  · simp only [alignTable, if_pos h]
    have himp : imp.take featNames.length = imp :=
      List.take_of_length_le (le_of_eq h)
    rw [h, min_self, List.take_length, himp]
  · simp only [alignTable, if_neg h]

theorem zip_take_min_length {α β : Type} (l1 : List α) (l2 : List β) :
    ((l1.take (min l2.length l1.length)).zip (l2.take (min l2.length l1.length))).length
      = min l2.length l1.length := by
  rw [List.length_zip, List.length_take, List.length_take]
  omega

/-- C5: when the extracted importance array's length differs from the
resolved feature-name count, the table is still produced (no error),
built from the two lists truncated to the shorter length; and every
produced table is sorted non-increasingly by score and has no more
rows than there are feature names. -/
theorem C5_importance_alignment (featNames : List String) (imp : List ℚ)
    (h : imp.length ≠ featNames.length) :
    (∃ tbl, alignTable featNames (some imp) = some tbl ∧
        tbl.length = min imp.length featNames.length ∧
        tbl.length ≤ featNames.length ∧
        List.Sorted impGE tbl ∧
        tbl.Perm ((featNames.take (min imp.length featNames.length)).zip
          (imp.take (min imp.length featNames.length)))) ∧
    (∀ imp2 tbl2, alignTable featNames (some imp2) = some tbl2 →
        List.Sorted impGE tbl2 ∧ tbl2.length ≤ featNames.length) := by
  constructor
  · refine ⟨_, alignTable_some_eq featNames imp, ?_, ?_, ?_, ?_⟩
    · rw [(List.perm_insertionSort impGE _).length_eq, zip_take_min_length]
    · rw [(List.perm_insertionSort impGE _).length_eq, zip_take_min_length]
      exact min_le_right _ _
    · exact List.sorted_insertionSort impGE _
    · exact List.perm_insertionSort impGE _
  · intro imp2 tbl2 heq
    rw [alignTable_some_eq] at heq
    obtain rfl := Option.some_inj.1 heq.symm
    refine ⟨List.sorted_insertionSort impGE _, ?_⟩
    rw [(List.perm_insertionSort impGE _).length_eq, zip_take_min_length]
    exact min_le_right _ _

theorem C5_importance_alignment_witness :
    ([(5 : ℚ)].length ≠ ["a", "b"].length) ∧
    (∃ tbl, alignTable ["a", "b"] (some [(5 : ℚ)]) = some tbl ∧
        tbl.length = min [(5 : ℚ)].length ["a", "b"].length ∧
        tbl.length ≤ ["a", "b"].length ∧
        List.Sorted impGE tbl ∧
        tbl.Perm ((["a", "b"].take (min [(5 : ℚ)].length ["a", "b"].length)).zip
          ([(5 : ℚ)].take (min [(5 : ℚ)].length ["a", "b"].length)))) :=
  ⟨by decide, (C5_importance_alignment ["a", "b"] [(5 : ℚ)] (by decide)).1⟩

/-- C7: importance extraction follows a fixed precedence: a native
feature_importances_ array is used directly; otherwise a coefficient
vector yields absolute values and a multi-class coefficient matrix
yields the per-column mean of absolute values across the class rows;
with neither capability no importance table is produced. -/
theorem C7_importance_precedence (m : ModelObj) (featNames : List String) :
    (∀ a, m.feature_importances_ = some a → extractImp m = some a) ∧
    (∀ v, m.feature_importances_ = none → m.coef_ = some (CoefArr.vec v) →
        extractImp m = some (v.map (fun x => |x|))) ∧
    (∀ rows, m.feature_importances_ = none → m.coef_ = some (CoefArr.mat rows) →
        extractImp m = some (meanAbsAxis0 rows) ∧
        (meanAbsAxis0 rows).length = (rows.headD []).length ∧
        (∀ j, j < (rows.headD []).length →
            (meanAbsAxis0 rows).getD j 0
              = ((rows.map (fun r => |r.getD j 0|)).sum) / (rows.length : ℚ))) ∧
    (m.feature_importances_ = none → m.coef_ = none →
        extractImp m = none ∧ alignTable featNames (extractImp m) = none) := by
  refine ⟨?_, ?_, ?_, ?_⟩
  · intro a h
    simp [extractImp, h]
  · intro v h1 h2
    simp [extractImp, h1, h2]
  · intro rows h1 h2
    refine ⟨by simp [extractImp, h1, h2], by simp [meanAbsAxis0], ?_⟩
    intro j hj
    unfold meanAbsAxis0
    rw [List.getD_eq_getElem?_getD, List.getElem?_map, List.getElem?_range hj]
    rfl
  · intro h1 h2
    have he : extractImp m = none := by simp [extractImp, h1, h2]
    exact ⟨he, by rw [he]; rfl⟩

theorem C7_importance_precedence_witness :
    extractImp (ModelObj.mk none (some (CoefArr.mat [[1, -2], [3, -4]])))
      = some (meanAbsAxis0 [[(1 : ℚ), -2], [3, -4]]) :=
  ((C7_importance_precedence
      (ModelObj.mk none (some (CoefArr.mat [[(1 : ℚ), -2], [3, -4]]))) []).2.2.1
    [[(1 : ℚ), -2], [3, -4]] rfl rfl).1

/-- C4: a fit/predict failure for one selected algorithm is caught and
surfaced as a warning naming that algorithm; the algorithm appears in
none of the session stores, every other selected algorithm that
trains successfully is stored, and the stores stay consistent: results
and trained_models hold the same keys in the same order and every
importance key is a results key. -/
theorem C4_failure_isolation {pi : Type} (featNames : List String)
    (run : String → Option (FitResult pi)) (algos : List String) (bad : String)
    (hmem : bad ∈ algos) (hfail : run bad = none) :
    ("Training failed for " ++ bad) ∈ (trainLoop featNames run algos).warnings ∧
    (∀ p, (bad, p) ∉ (trainLoop featNames run algos).trained) ∧
    (∀ e, (bad, e) ∉ (trainLoop featNames run algos).results) ∧
    (∀ tb, (bad, tb) ∉ (trainLoop featNames run algos).importances) ∧
    (∀ a r, a ∈ algos → run a = some r →
        (a, r.pipe) ∈ (trainLoop featNames run algos).trained ∧
        (a, (⟨r.acc, r.preds⟩ : ResEntry)) ∈ (trainLoop featNames run algos).results) ∧
    ((trainLoop featNames run algos).results.map Prod.fst
      = (trainLoop featNames run algos).trained.map Prod.fst) ∧
    (∀ n, n ∈ (trainLoop featNames run algos).importances.map Prod.fst →
        n ∈ (trainLoop featNames run algos).results.map Prod.fst) := by
  unfold trainLoop
  rw [trainLoop_foldl_eq]
  simp only [emptyStore, List.nil_append]
  refine ⟨?_, ?_, ?_, ?_, ?_, ?_, ?_⟩
  · exact List.mem_filterMap.2 ⟨bad, hmem, by rw [hfail]⟩
  · intro p hp
    obtain ⟨a, ha, heq⟩ := List.mem_filterMap.1 hp
    cases hra : run a with
    | none => rw [hra] at heq; exact absurd heq (by simp)
    | some r =>
      rw [hra] at heq
      simp only [Option.map_some', Option.some_inj, Prod.mk.injEq] at heq
      rw [heq.1, hfail] at hra
      exact Option.noConfusion hra
  · intro e he
    obtain ⟨a, ha, heq⟩ := List.mem_filterMap.1 he
    cases hra : run a with
    | none => rw [hra] at heq; exact absurd heq (by simp)
    | some r =>
      rw [hra] at heq
      simp only [Option.map_some', Option.some_inj, Prod.mk.injEq] at heq
      rw [heq.1, hfail] at hra
      exact Option.noConfusion hra
  · intro tb htb
    obtain ⟨a, ha, heq⟩ := List.mem_filterMap.1 htb
    cases hra : run a with
    | none => rw [hra] at heq; exact absurd heq (by simp)
    | some r =>
      rw [hra, Option.some_bind'] at heq
      cases halign : alignTable featNames (extractImp r.model) with
      | none => rw [halign] at heq; exact absurd heq (by simp)
      | some tbl =>
        rw [halign] at heq
        simp only [Option.map_some', Option.some_inj, Prod.mk.injEq] at heq
        rw [heq.1, hfail] at hra
        exact Option.noConfusion hra
  · intro a r ha hr
    refine ⟨List.mem_filterMap.2 ⟨a, ha, by rw [hr]; rfl⟩,
      List.mem_filterMap.2 ⟨a, ha, by rw [hr]; rfl⟩⟩
  · exact (keys_of_filterMap run (fun r => ResEntry.mk r.acc r.preds) algos).trans
      (keys_of_filterMap run (fun r => r.pipe) algos).symm
  · intro n hn
    obtain ⟨⟨n0, tbl⟩, hmemI, hfst⟩ := List.mem_map.1 hn
    obtain ⟨a, ha, heq⟩ := List.mem_filterMap.1 hmemI
    cases hra : run a with
    | none => rw [hra] at heq; exact absurd heq (by simp)
    | some r =>
      rw [hra, Option.some_bind'] at heq
      cases halign : alignTable featNames (extractImp r.model) with
      | none => rw [halign] at heq; exact absurd heq (by simp)
      | some tbl2 =>
        rw [halign] at heq
        simp only [Option.map_some', Option.some_inj, Prod.mk.injEq] at heq
        have han : a = n := by rw [heq.1]; exact hfst
        rw [keys_of_filterMap run (fun r => ResEntry.mk r.acc r.preds) algos]
        refine List.mem_filter.2 ⟨han ▸ ha, ?_⟩
        rw [← han, hra]
        rfl

theorem C4_failure_isolation_witness :
    ("Training failed for " ++ "SVM")
        ∈ (trainLoop [] (fun a => if a = "KNN"
            then some (⟨0, [1], 1, ⟨none, none⟩⟩ : FitResult ℕ) else none)
            ["KNN", "SVM"]).warnings :=
  (C4_failure_isolation [] (fun a => if a = "KNN"
      then some (⟨0, [1], 1, ⟨none, none⟩⟩ : FitResult ℕ) else none)
    ["KNN", "SVM"] "SVM" (by decide) (by rfl)).1

/-- C2: with the selection modelled as the subset of the fixed
seven-algorithm catalog kept in catalog order, the Save-best-model
handler picks the trained entry of maximal accuracy — the first such
entry in store order on ties, and store order is catalog order — and
persists that algorithm's fitted pipeline under the fixed filename
best_dropout_model.joblib. -/
theorem C2_select_best {pi : Type} (featNames : List String)
    (run : String → Option (FitResult pi)) (sel : String → Bool)
    (hne : (trainLoop featNames run (catalog.filter sel)).results ≠ []) :
    ∃ best r l₁ l₂,
      run best = some r ∧
      best ∈ catalog.filter sel ∧
      (trainLoop featNames run (catalog.filter sel)).results
        = l₁ ++ (best, (⟨r.acc, r.preds⟩ : ResEntry)) :: l₂ ∧
      (∀ x ∈ l₁, x.2.accuracy < r.acc) ∧
      (∀ x ∈ (trainLoop featNames run (catalog.filter sel)).results,
          x.2.accuracy ≤ r.acc) ∧
      saveBest (trainLoop featNames run (catalog.filter sel))
        = Except.ok ("best_dropout_model.joblib", r.pipe) ∧
      (trainLoop featNames run (catalog.filter sel)).results.map Prod.fst
        = (catalog.filter sel).filter (fun a => (run a).isSome) := by
  have hres : (trainLoop featNames run (catalog.filter sel)).results
      = (catalog.filter sel).filterMap
          (fun a => (run a).map (fun r => (a, (⟨r.acc, r.preds⟩ : ResEntry)))) := by
    unfold trainLoop
    rw [trainLoop_foldl_eq]
    simp only [emptyStore, List.nil_append]
  have htr : (trainLoop featNames run (catalog.filter sel)).trained
      = (catalog.filter sel).filterMap
          (fun a => (run a).map (fun r => (a, r.pipe))) := by
    unfold trainLoop
    rw [trainLoop_foldl_eq]
    simp only [emptyStore, List.nil_append]
  cases hcons : (trainLoop featNames run (catalog.filter sel)).results with
  | nil => exact absurd hcons hne
  | cons e rest =>
    obtain ⟨l₁, l₂, hdecomp, hlt, hle⟩ :=
      pyMax_spec (fun x : String × ResEntry => x.2.accuracy) rest e
    have hmmem : pyMax (fun x : String × ResEntry => x.2.accuracy) e rest
        ∈ (trainLoop featNames run (catalog.filter sel)).results := by
      rw [hcons, hdecomp]
      exact List.mem_append_right _ (List.mem_cons_self _ _)
    rw [hres] at hmmem
    obtain ⟨a, ha, heq⟩ := List.mem_filterMap.1 hmmem
    cases hra : run a with
    | none => rw [hra] at heq; exact absurd heq (by simp)
    | some r =>
      rw [hra] at heq
      simp only [Option.map_some', Option.some_inj] at heq
      refine ⟨a, r, l₁, l₂, hra, ha, ?_, ?_, ?_, ?_, ?_⟩
      · rw [hdecomp, ← heq]
      · intro x hx
        have h3 := hlt x hx
        rw [← heq] at h3
        exact h3
      · intro x hx
        have h3 := hle x hx
        rw [← heq] at h3
        exact h3
      · have hmax : pyMaxBy (fun x : String × ResEntry => x.2.accuracy)
            (trainLoop featNames run (catalog.filter sel)).results
            = some (a, (⟨r.acc, r.preds⟩ : ResEntry)) := by
          rw [hcons]
          show some (pyMax _ e rest) = _
          rw [← heq]
        have hlook : (trainLoop featNames run (catalog.filter sel)).trained.lookup a
            = some r.pipe := by
          rw [htr]
          exact lookup_trained run (catalog.filter sel) a r ha hra
        unfold saveBest
        simp only [hmax, hlook]
      · rw [← hcons, hres]
        exact keys_of_filterMap run (fun r => ResEntry.mk r.acc r.preds) _

/-- Oracle for the select-best witness: only Logistic Regression
trains, with accuracy one half. -/
def wRunC2 : String → Option (FitResult ℕ) :=
  fun a => if a = "Logistic Regression"
    then some ⟨7, [0], 1/2, ⟨none, none⟩⟩ else none

/-- Selection for the select-best witness: Logistic Regression only. -/
def wSelC2 : String → Bool := fun a => a == "Logistic Regression"

theorem C2_select_best_witness :
    (trainLoop [] wRunC2 (catalog.filter wSelC2)).results ≠ [] ∧
    (∃ best r l₁ l₂,
      wRunC2 best = some r ∧
      best ∈ catalog.filter wSelC2 ∧
      (trainLoop [] wRunC2 (catalog.filter wSelC2)).results
        = l₁ ++ (best, (⟨r.acc, r.preds⟩ : ResEntry)) :: l₂ ∧
      (∀ x ∈ l₁, x.2.accuracy < r.acc) ∧
      (∀ x ∈ (trainLoop [] wRunC2 (catalog.filter wSelC2)).results,
          x.2.accuracy ≤ r.acc) ∧
      saveBest (trainLoop [] wRunC2 (catalog.filter wSelC2))
        = Except.ok ("best_dropout_model.joblib", r.pipe) ∧
      (trainLoop [] wRunC2 (catalog.filter wSelC2)).results.map Prod.fst
        = (catalog.filter wSelC2).filter (fun a => (wRunC2 a).isSome)) :=
  ⟨by decide, C2_select_best [] wRunC2 wSelC2 (by decide)⟩

/-- C10: when a training run happened but every selected algorithm
failed, the results store exists (so the Save-best-model button shows)
yet is empty, and pressing the button evaluates Python's max over an
empty sequence — an uncaught ValueError, not a reported no-results
state. -/
theorem C10_save_best_on_empty {pi : Type} (featNames : List String)
    (run : String → Option (FitResult pi)) (algos : List String)
    (hfail : ∀ a ∈ algos, run a = none) :
    (trainLoop featNames run algos).results = [] ∧
    saveButtonShown (some (trainLoop featNames run algos)) = true ∧
    saveBest (trainLoop featNames run algos)
      = Except.error "ValueError: max() arg is an empty sequence" := by
  have hres : (trainLoop featNames run algos).results = [] := by
    unfold trainLoop
    rw [trainLoop_foldl_eq]
    simp only [emptyStore, List.nil_append]
    rw [List.filterMap_eq_nil_iff]
    intro a ha
    rw [hfail a ha]
    rfl
  refine ⟨hres, rfl, ?_⟩
  unfold saveBest
  rw [hres]
  rfl

theorem C10_save_best_on_empty_witness :
    (trainLoop [] (fun _ => (none : Option (FitResult Unit))) ["SVM"]).results = [] ∧
    saveButtonShown
      (some (trainLoop [] (fun _ => (none : Option (FitResult Unit))) ["SVM"])) = true ∧
    saveBest (trainLoop [] (fun _ => (none : Option (FitResult Unit))) ["SVM"])
      = Except.error "ValueError: max() arg is an empty sequence" :=
  C10_save_best_on_empty [] (fun _ => none) ["SVM"] (fun _ _ => rfl)

/-- Target column used to separate the code's encoding from the spec's
wording: a float64 column whose values 0.4 and 0.6 are numeric but not
cleanly integer-castable. -/
def exTargetFloatCol : Column :=
  ⟨"Dropout_Risk", .float64, [.floatV (mkRat 2 5), .floatV (mkRat 3 5)]⟩

/-- C6 counterexample: on a float column holding 0.4 and 0.6 — numeric
values that are not cleanly integer-castable — the code does not fall
back to the string mapping: astype(int) succeeds by truncating toward
zero, collapsing both values to class 0, while the claimed
string-mapping path would keep two distinct classes. -/
theorem C6_counterexample :
    isObjectLikeDtype exTargetFloatCol.dtype = false ∧
    cleanlyIntCastable (Value.floatV (mkRat 2 5)) = false ∧
    encodeTargetCode exTargetFloatCol = [0, 0] ∧
    encodeTargetSpec exTargetFloatCol = [0, 1] ∧
    encodeTargetCode exTargetFloatCol ≠ encodeTargetSpec exTargetFloatCol := by
  refine ⟨rfl, rfl, ?_, ?_, ?_⟩
  · decide
  · decide
  · decide

/-- C6 (amended): object/category targets take the string-mapping
path; numeric targets take it only when the integer cast raises, which
happens exactly when some cell is missing (NaN) — a finite float is
cast by truncation toward zero, not diverted to the string mapping. -/
theorem C6_label_encoding (c : Column) :
    (isObjectLikeDtype c.dtype = true → encodeTargetCode c = stringEncode c.values) ∧
    (isObjectLikeDtype c.dtype = false →
      ((∃ v ∈ c.values, astypeIntCell v = none) →
          encodeTargetCode c = stringEncode c.values) ∧
      ((∀ v ∈ c.values, (astypeIntCell v).isSome) →
          encodeTargetCode c = c.values.map (fun v => (astypeIntCell v).getD 0))) ∧
    (∀ q : ℚ, astypeIntCell (Value.floatV q) = some (truncToward0 q)) ∧
    astypeIntCell Value.missing = none := by
  refine ⟨?_, ?_, fun q => rfl, rfl⟩
  · intro h
    simp [encodeTargetCode, h]
  · intro h
    constructor
    · intro hex
      obtain ⟨v, hv, hvnone⟩ := hex
      simp [encodeTargetCode, h, allSome_map_eq_none astypeIntCell c.values ⟨v, hv, hvnone⟩]
    · intro hall
      simp [encodeTargetCode, h, allSome_map_eq_some astypeIntCell 0 c.values hall]

theorem C6_label_encoding_witness :
    encodeTargetCode
        (Column.mk "Target" Dtype.float64 [Value.floatV (mkRat 3 2), Value.missing])
      = stringEncode [Value.floatV (mkRat 3 2), Value.missing] :=
  ((C6_label_encoding
      (Column.mk "Target" Dtype.float64 [Value.floatV (mkRat 3 2), Value.missing])).2.1
    rfl).1 ⟨Value.missing, by decide, rfl⟩

/-- C9: the prediction form's numeric test agrees with the resolver's
partition on every dtype the app can produce; a column is numeric
exactly when its storage type is an integer or floating-point type; a
numeric column renders as a numeric entry defaulting to the column's
median over the feature table; any other column renders as a closed
choice over the column's distinct observed values in first-occurrence
order, pre-selecting the first. -/
theorem C9_prediction_form (df : Frame) (t : String) :
    (∀ d : Dtype, formIsNumeric d = isNumericDtype d) ∧
    (∀ d : Dtype, isNumericDtype d = true ↔
        (d = Dtype.int64 ∨ d = Dtype.int32 ∨ d = Dtype.float64 ∨ d = Dtype.float32)) ∧
    (∀ c ∈ featureTable df t,
      (isNumericDtype c.dtype = true →
          renderWidget c = Widget.numberInput c.name (median (c.values.map valueRat))) ∧
      (isNumericDtype c.dtype = false →
          renderWidget c
            = Widget.selectBox c.name (uniqueFirst (c.values.map valueStr)) 0 ∧
          (uniqueFirst (c.values.map valueStr)).Nodup ∧
          (∀ s, s ∈ uniqueFirst (c.values.map valueStr) ↔ s ∈ c.values.map valueStr) ∧
          (uniqueFirst (c.values.map valueStr)).head? = (c.values.map valueStr).head?)) := by
  have hagree : ∀ d : Dtype, formIsNumeric d = isNumericDtype d := by
    intro d
    cases d <;> rfl
  refine ⟨hagree, ?_, ?_⟩
  · intro d
    cases d <;> simp [isNumericDtype]
  · intro c _
    constructor
    · intro h
      have hf : formIsNumeric c.dtype = true := (hagree c.dtype).trans h
      simp [renderWidget, hf]
    · intro h
      have hf : formIsNumeric c.dtype = false := (hagree c.dtype).trans h
      exact ⟨by simp [renderWidget, hf], nodup_uniqueFirst _,
        fun s => mem_uniqueFirst _ s, headOpt_uniqueFirst _⟩

theorem C9_prediction_form_witness :
    renderWidget (Column.mk "Financial_Status" Dtype.object
        [Value.strV "low", Value.intV (-999)])
      = Widget.selectBox "Financial_Status"
          (uniqueFirst ([Value.strV "low", Value.intV (-999)].map valueStr)) 0 :=
  (((C9_prediction_form exDfC3 "Dropout_Risk").2.2
      (Column.mk "Financial_Status" Dtype.object [Value.strV "low", Value.intV (-999)])
      (by decide)).2 rfl).1

end StudentDropout
